import Mathlib

/-!
Verification development for the `phoneshop` repository: a template-generated
e-commerce application with an Express/Mongoose backend
(`Appifyours/backend/server.js`) and a Flutter storefront client
(`Appifyours/frontend/lib/main.dart`).

Shallow embedding conventions:
* JavaScript / Dart numbers (prices, quantities, totals) are modelled as `ℚ`;
  the Dart `int` quantity of a client cart item is modelled as `Int`.
* `Date.now()` millisecond timestamps are modelled as a `Nat` parameter `now`
  threaded into each operation.
* Mongoose documents are Lean structures; the users collection is a list of
  accounts plus a counter supplying fresh document ids.
* bcrypt hashing and comparison are abstracted as function parameters
  (`hash : String → String`, `compare : String → String → Bool`); JWT signing
  is modelled by the record of claims the token embeds, since both are
  delegated to standard libraries.
* Fallible handlers return `Except ApiError _` (paired with the resulting
  state when the handler mutates the account).
-/

namespace PhoneShop

/-! ## Frontend price utilities (`main.dart`, class `PriceUtils`) -/

/-- `PriceUtils.calculateTax(subtotal, taxRate) = subtotal * (taxRate / 100)`. -/
def calculateTax (subtotal taxRate : ℚ) : ℚ :=
  subtotal * (taxRate / 100)

/-- `PriceUtils.applyShipping(total, shippingFee, {freeShippingThreshold = 100.0})`:
`total >= freeShippingThreshold ? total : total + shippingFee`.  The Dart
default threshold `100.0` is passed explicitly by callers of this embedding. -/
def applyShipping (total shippingFee freeShippingThreshold : ℚ) : ℚ :=
  if total ≥ freeShippingThreshold then total else total + shippingFee

/-! ## Frontend cart model (`main.dart`, classes `CartItem`, `CartManager`) -/

/-- Dart `CartItem`: id, name, price, discountPrice (default 0), quantity
(Dart `int`, default 1), optional image. -/
structure CartItem where
  id : String
  name : String
  price : ℚ
  discountPrice : ℚ
  quantity : Int
  image : Option String
  deriving DecidableEq, Repr

/-- `CartItem.effectivePrice => discountPrice > 0 ? discountPrice : price`. -/
def effectivePrice (i : CartItem) : ℚ :=
  if i.discountPrice > 0 then i.discountPrice else i.price

/-- `CartItem.totalPrice => effectivePrice * quantity`. -/
def totalPrice (i : CartItem) : ℚ :=
  effectivePrice i * (i.quantity : ℚ)

/-- `CartManager.addItem`: `indexWhere((i) => i.id == item.id)`; if found,
increment that item's quantity by `item.quantity`, else append `item`.
The recursion updates the first match and otherwise appends at the end,
exactly as the Dart index search does. -/
def cartAddItem : List CartItem → CartItem → List CartItem
  | [], item => [item]
  | i :: rest, item =>
    if i.id = item.id then { i with quantity := i.quantity + item.quantity } :: rest
    else i :: cartAddItem rest item

/-- `CartManager.removeItem`: `removeWhere((item) => item.id == id)`. -/
def cartRemoveItem (items : List CartItem) (id : String) : List CartItem :=
  items.filter (fun i => !(i.id == id))

/-- `CartManager.updateQuantity`: `firstWhere((i) => i.id == id)` (throws
`StateError` when absent, modelled as `none`) then sets `item.quantity`. -/
def cartUpdateQuantity : List CartItem → String → Int → Option (List CartItem)
  | [], _, _ => none
  | i :: rest, id, q =>
    if i.id = id then some ({ i with quantity := q } :: rest)
    else (cartUpdateQuantity rest id q).map (fun l => i :: l)

/-- `CartManager.clear`: `_items.clear()`. -/
def cartClear : List CartItem := []

/-- `CartManager.subtotal`: fold of `totalPrice` starting from `0.0`. -/
def subtotal (items : List CartItem) : ℚ :=
  items.foldl (fun s i => s + totalPrice i) 0

/-- `CartManager.totalWithTax`: subtotal plus 8% tax. -/
def totalWithTax (items : List CartItem) : ℚ :=
  subtotal items + calculateTax (subtotal items) 8

/-- `CartManager.totalDiscount`. -/
def totalDiscount (items : List CartItem) : ℚ :=
  items.foldl (fun s i => s + (i.price - effectivePrice i) * (i.quantity : ℚ)) 0

/-- `CartManager.gstAmount`: 18% GST on the subtotal. -/
def gstAmount (items : List CartItem) : ℚ :=
  calculateTax (subtotal items) 18

/-- `CartManager.finalTotal`: subtotal plus GST. -/
def finalTotal (items : List CartItem) : ℚ :=
  subtotal items + gstAmount items

/-- `CartManager.finalTotalWithShipping`: `applyShipping(totalWithTax, 5.99)`
with the default free-shipping threshold `100.0`. -/
def finalTotalWithShipping (items : List CartItem) : ℚ :=
  applyShipping (totalWithTax items) (599/100) 100

/-! ## Frontend wishlist model (`main.dart`, `WishlistItem`, `WishlistManager`) -/

structure WishlistItem where
  id : String
  name : String
  price : ℚ
  discountPrice : ℚ
  image : Option String
  deriving DecidableEq, Repr

/-- `WishlistManager.addItem`: append only when no item with the same id
exists (`!_items.any((i) => i.id == item.id)`). -/
def wishlistAddItem (items : List WishlistItem) (item : WishlistItem) : List WishlistItem :=
  if items.any (fun i => i.id == item.id) then items else items ++ [item]

/-- `WishlistManager.removeItem`: `removeWhere((item) => item.id == id)`. -/
def wishlistRemoveItem (items : List WishlistItem) (id : String) : List WishlistItem :=
  items.filter (fun i => !(i.id == id))

/-- Concrete cart from the spec example: `[{price:10, qty:2}, {price:5, qty:1}]`,
no discounts. -/
def exampleCart : List CartItem :=
  [⟨"1", "A", 10, 0, 2, none⟩, ⟨"2", "B", 5, 0, 1, none⟩]

/-- Concrete cart whose taxed total is below the free-shipping threshold. -/
def lowCart : List CartItem := [⟨"1", "A", 10, 0, 2, none⟩]

/-- Concrete cart whose taxed total is above the free-shipping threshold. -/
def highCart : List CartItem := [⟨"1", "A", 100, 0, 1, none⟩]

/-! ## Backend data model (`server.js`, `usersCreateAccountSchema`) -/

/-- Entry of `purchaseHistory`: `{ productId, productName, quantity, price, purchaseDate }`. -/
structure PurchaseItem where
  productId : String
  productName : String
  quantity : ℚ
  price : ℚ
  purchaseDate : Nat
  deriving DecidableEq, Repr

/-- Entry of the server-side `cart`: `{ productId, productName, quantity, price, addedAt }`.
The cart handler's `push` never sets `addedAt`, hence the `Option`. -/
structure ServerCartItem where
  productId : String
  productName : String
  quantity : ℚ
  price : ℚ
  addedAt : Option Nat
  deriving DecidableEq, Repr

/-- Entry of the server-side `wishlist`: `{ productId, productName, productPrice, addedAt }`.
The wishlist handler's `push` never sets `addedAt`, hence the `Option`. -/
structure ServerWishItem where
  productId : String
  productName : String
  productPrice : ℚ
  addedAt : Option Nat
  deriving DecidableEq, Repr

/-- A `users_create_account` document.  `id` models the Mongo `_id`. -/
structure UserAccount where
  id : Nat
  adminObjectId : String
  firstName : String
  lastName : String
  email : String
  password : String
  phone : String
  countryCode : String
  fullName : String
  purchaseHistory : List PurchaseItem
  wishlist : List ServerWishItem
  cart : List ServerCartItem
  createdAt : Nat
  updatedAt : Nat
  deriving DecidableEq, Repr

/-- Error taxonomy of the handlers (each serialized as
`{ success: false, error: message }` with a 4xx status). -/
inductive ApiError where
  | allFieldsRequired
  | duplicateAccount
  | invalidCredentials
  | emptyCart
  deriving DecidableEq, Repr

/-- Claims a signed session token embeds:
`jwt.sign({ userId, email, adminObjectId }, ...)`.  Signing itself is
delegated to the `jsonwebtoken` library and is out of the model. -/
structure AuthToken where
  userId : Nat
  email : String
  adminObjectId : String
  deriving DecidableEq, Repr

/-- The `users_create_account` collection plus the driver's fresh-id supply. -/
structure UserStore where
  accounts : List UserAccount
  nextId : Nat
  deriving Repr

/-- JavaScript `email.toLowerCase()`. -/
def lowerStr (s : String) : String :=
  ⟨s.data.map Char.toLower⟩

/-- `UsersCreateAccount.findOne({ adminObjectId, email })`. -/
def findAccount (store : UserStore) (tenant email : String) : Option UserAccount :=
  store.accounts.find? (fun a => a.adminObjectId == tenant && a.email == email)

/-! ## Backend handlers -/

/-- `POST /api/users/register` (server.js lines 226-262).  `hash` abstracts
`bcrypt.hash(password, 10)`; `now` models `Date.now()`.  The
`mongoose.Types.ObjectId.isValid` guard is driver glue (the tenant id is
opaque here) and is not modelled; the falsy-field guard is. -/
def register (hash : String → String) (store : UserStore)
    (adminObjectId firstName lastName email password phone countryCode : String)
    (now : Nat) : UserStore × Except ApiError AuthToken :=
  if adminObjectId = "" ∨ firstName = "" ∨ lastName = "" ∨ email = "" ∨
      password = "" ∨ phone = "" then
    (store, .error .allFieldsRequired)
  else
    match findAccount store adminObjectId (lowerStr email) with
    | some _ => (store, .error .duplicateAccount)
    | none =>
      let acct : UserAccount :=
        { id := store.nextId
          adminObjectId := adminObjectId
          firstName := firstName
          lastName := lastName
          email := lowerStr email
          password := hash password
          phone := phone
          countryCode := if countryCode = "" then "+91" else countryCode
          fullName := firstName ++ " " ++ lastName
          purchaseHistory := []
          wishlist := []
          cart := []
          createdAt := now
          updatedAt := now }
      ({ accounts := store.accounts ++ [acct], nextId := store.nextId + 1 },
       .ok ⟨store.nextId, lowerStr email, adminObjectId⟩)

/-- `POST /api/users/login` (server.js lines 265-294).  `compare` abstracts
`bcrypt.compare(password, user.password)`. -/
def login (compare : String → String → Bool) (store : UserStore)
    (adminObjectId email password : String) : Except ApiError AuthToken :=
  if adminObjectId = "" ∨ email = "" ∨ password = "" then
    .error .allFieldsRequired
  else
    match findAccount store adminObjectId (lowerStr email) with
    | none => .error .invalidCredentials
    | some a =>
      if compare password a.password then .ok ⟨a.id, a.email, adminObjectId⟩
      else .error .invalidCredentials

/-- Cart mutation inside `POST /api/users/cart` (server.js lines 337-342):
`find(item => item.productId === productId)`; if found, `quantity += q`,
else `push({ productId, productName, price, quantity: q })`.  The recursion
updates the first match and otherwise appends at the end. -/
def addToCartItems : List ServerCartItem → String → String → ℚ → ℚ → List ServerCartItem
  | [], pid, pname, price, q => [⟨pid, pname, q, price, none⟩]
  | i :: rest, pid, pname, price, q =>
    if i.productId = pid then { i with quantity := i.quantity + q } :: rest
    else i :: addToCartItems rest pid pname price q

/-- `POST /api/users/cart` (server.js lines 330-349).  `quantity` is the raw
request field; JavaScript `quantity || 1` turns an absent or zero quantity
into 1.  Always sets `updatedAt = new Date()`. -/
def addToCart (u : UserAccount) (productId productName : String) (price : ℚ)
    (quantity : Option ℚ) (now : Nat) : UserAccount :=
  let q := match quantity with
    | none => 1
    | some qq => if qq = 0 then 1 else qq
  { u with cart := addToCartItems u.cart productId productName price q,
           updatedAt := now }

/-- `POST /api/users/wishlist` (server.js lines 365-382): push only when
`find(item => item.productId === productId)` fails; only then are
`updatedAt` and the document touched. -/
def addToWishlist (u : UserAccount) (productId productName : String)
    (productPrice : ℚ) (now : Nat) : UserAccount :=
  if u.wishlist.any (fun i => i.productId == productId) then u
  else
    { u with wishlist := u.wishlist ++ [⟨productId, productName, productPrice, none⟩],
             updatedAt := now }

structure OrderData where
  orderId : String
  items : List PurchaseItem
  total : ℚ
  deriving DecidableEq, Repr

/-- The purchase-history entry built from a cart item at order time
(stamped `purchaseDate: new Date()`). -/
def stampPurchase (now : Nat) (i : ServerCartItem) : PurchaseItem :=
  ⟨i.productId, i.productName, i.quantity, i.price, now⟩

/-- `POST /api/users/orders` (server.js lines 398-428): reject an empty cart
(leaving the account untouched); otherwise compute
`orderId = 'ORDER_' + Date.now()`, `total = cart.reduce(sum + price*quantity, 0)`,
append the stamped items to `purchaseHistory`, clear the cart and set
`updatedAt`.  Returns the possibly-updated account plus the response. -/
def placeOrder (u : UserAccount) (now : Nat) : UserAccount × Except ApiError OrderData :=
  if u.cart.isEmpty then (u, .error .emptyCart)
  else
    let orderId := "ORDER_" ++ toString now
    let total := u.cart.foldl (fun s i => s + i.price * i.quantity) 0
    let purchaseItems := u.cart.map (stampPurchase now)
    ({ u with purchaseHistory := u.purchaseHistory ++ purchaseItems,
              cart := [],
              updatedAt := now },
     .ok ⟨orderId, purchaseItems, total⟩)

/-! ## Backend product search (`GET /api/products/search/...`, lines 164-183) -/

/-- The fields of a `productCards` entry that the search consults; either may
be absent (`Mixed` documents). -/
structure Product where
  productName : Option String
  description : Option String
  deriving DecidableEq, Repr

/-- JavaScript `hay.includes(needle)`: some suffix of `hay` starts with
`needle`. -/
def strContains (hay needle : String) : Bool :=
  hay.data.tails.any (fun t => needle.data.isPrefixOf t)

/-- The handler's filter predicate:
`(p.productName && p.productName.toLowerCase().includes(query.toLowerCase())) ||
 (p.description && p.description.toLowerCase().includes(query.toLowerCase()))`,
where the truthiness guard rejects an absent or empty field. -/
def productMatches (query : String) (p : Product) : Bool :=
  (match p.productName with
   | some n => (n != "") && strContains (lowerStr n) (lowerStr query)
   | none => false) ||
  (match p.description with
   | some d => (d != "") && strContains (lowerStr d) (lowerStr query)
   | none => false)

/-- `GET /api/products/search/:adminObjectId/:query`: filter of the tenant's
`productCards` array. -/
def searchProducts (products : List Product) (query : String) : List Product :=
  products.filter (productMatches query)

/-- Predicate taken from the spec's words: the product's name or description
contains the query as a case-insensitive substring. -/
def specSearchMatches (query : String) (p : Product) : Bool :=
  (match p.productName with
   | some n => strContains (lowerStr n) (lowerStr query)
   | none => false) ||
  (match p.description with
   | some d => strContains (lowerStr d) (lowerStr query)
   | none => false)

/-! ## Uniqueness invariant and reachable states -/

/-- The cart/wishlist invariant: the product references of the line items are
pairwise distinct, i.e. each reference appears in at most one line item. -/
def uniqueKeys {α : Type} (key : α → String) (items : List α) : Prop :=
  (items.map key).Nodup

/-- Client cart states reachable from the initial empty `CartManager` by the
Dart operations.  `update` only steps when `firstWhere` finds the id
(otherwise the Dart call throws and the state is unchanged). -/
inductive CartReach : List CartItem → Prop where
  | start : CartReach []
  | add (s : List CartItem) (item : CartItem) : CartReach s → CartReach (cartAddItem s item)
  | remove (s : List CartItem) (id : String) : CartReach s → CartReach (cartRemoveItem s id)
  | update (s : List CartItem) (id : String) (q : Int) (s' : List CartItem) :
      CartReach s → cartUpdateQuantity s id q = some s' → CartReach s'
  | clear (s : List CartItem) : CartReach s → CartReach cartClear

/-- Client wishlist states reachable from the initial empty `WishlistManager`. -/
inductive WishReach : List WishlistItem → Prop where
  | start : WishReach []
  | add (s : List WishlistItem) (item : WishlistItem) : WishReach s → WishReach (wishlistAddItem s item)
  | remove (s : List WishlistItem) (id : String) : WishReach s → WishReach (wishlistRemoveItem s id)
  | clear (s : List WishlistItem) : WishReach s → WishReach []

/-- Server account states reachable from a freshly registered account (whose
cart and wishlist are the schema-default empty arrays) by the cart, wishlist
and order handlers. -/
inductive AccountReach : UserAccount → Prop where
  | created (u : UserAccount) : u.cart = [] → u.wishlist = [] → AccountReach u
  | cartStep (u : UserAccount) (pid pname : String) (price : ℚ) (q : Option ℚ) (now : Nat) :
      AccountReach u → AccountReach (addToCart u pid pname price q now)
  | wishStep (u : UserAccount) (pid pname : String) (price : ℚ) (now : Nat) :
      AccountReach u → AccountReach (addToWishlist u pid pname price now)
  | orderStep (u : UserAccount) (now : Nat) :
      AccountReach u → AccountReach (placeOrder u now).1

/-! ## Concrete data for witnesses and counterexamples -/

/-- An account with the given cart and otherwise innocuous fields. -/
def mkUser (cart : List ServerCartItem) : UserAccount :=
  { id := 0
    adminObjectId := "t"
    firstName := "f"
    lastName := "l"
    email := "e"
    password := "pw#"
    phone := "9"
    countryCode := "+91"
    fullName := "f l"
    purchaseHistory := []
    wishlist := []
    cart := cart
    createdAt := 0
    updatedAt := 0 }

/-- Account whose cart already holds product `p1` with quantity 5. -/
def cexBase : UserAccount := mkUser [⟨"p1", "Phone", 5, 1, none⟩]

/-- A concrete stand-in for `bcrypt.hash`. -/
def whash : String → String := fun s => String.append s "#"

/-- A concrete stand-in for `bcrypt.compare` matching `whash`. -/
def wcompare : String → String → Bool := fun p h => String.append p "#" == h

/-- A one-account store matching `mkUser []` for login witnesses. -/
def store0 : UserStore := { accounts := [mkUser []], nextId := 1 }

/-- Concrete product list for the search witness. -/
def redProducts : List Product :=
  [⟨some "Red Phone", none⟩, ⟨some "Blue Case", some "a RED cover"⟩,
   ⟨some "Green", some "plain"⟩, ⟨none, none⟩, ⟨some "", some ""⟩]

/-- Concrete client cart for the update-quantity witness. -/
def witnessItems : List CartItem :=
  [⟨"a", "A", 10, 0, 1, none⟩, ⟨"b", "B", 5, 0, 2, none⟩]

/-! ## Helper lemmas -/

/-- A left fold of `+ f x` from an initial accumulator is the initial
accumulator plus the sum of the mapped list. -/
theorem foldl_add_eq_sum {α : Type} (f : α → ℚ) :
    ∀ (l : List α) (init : ℚ), l.foldl (fun s x => s + f x) init = init + (l.map f).sum
  | [], init => by simp
  | x :: xs, init => by
    simp [List.foldl_cons, foldl_add_eq_sum f xs, add_assoc]

theorem subtotal_eq_sum (items : List CartItem) :
    subtotal items = (items.map totalPrice).sum := by
  simpa using foldl_add_eq_sum totalPrice items 0

/-! ## C5 / C6: client price computations -/

/-- C5: the effective price of a cart item is the discount price when strictly
positive, else the list price; the subtotal is the sum over items of effective
price times quantity; GST is 18% of the subtotal and the final total is
subtotal plus GST; and on the spec's example cart
`[{price:10, qty:2}, {price:5, qty:1}]` the subtotal is 25, GST is 4.5 and the
final total is 29.5. -/
theorem cart_pricing_spec (items : List CartItem) (i : CartItem) :
    (effectivePrice i = if i.discountPrice > 0 then i.discountPrice else i.price) ∧
    subtotal items = (items.map (fun j => effectivePrice j * (j.quantity : ℚ))).sum ∧
    gstAmount items = 18/100 * subtotal items ∧
    finalTotal items = subtotal items + gstAmount items ∧
    subtotal exampleCart = 25 ∧
    gstAmount exampleCart = 9/2 ∧
    finalTotal exampleCart = 59/2 := by
  refine ⟨rfl, subtotal_eq_sum items, ?_, rfl, ?_, ?_, ?_⟩
  · simp [gstAmount, calculateTax]; ring
  · simp [subtotal_eq_sum, exampleCart, totalPrice, effectivePrice]
    norm_num
  · simp [gstAmount, calculateTax, subtotal_eq_sum, exampleCart, totalPrice, effectivePrice]
    norm_num
  · simp [finalTotal, gstAmount, calculateTax, subtotal_eq_sum, exampleCart, totalPrice,
      effectivePrice]
    norm_num

/-- C6: the client total with shipping is subtotal plus 8% tax when that sum
reaches the free-shipping threshold 100, and additionally the flat fee 5.99
otherwise; illustrated on a cart below the threshold (20 + 1.6 + 5.99 = 27.59)
and one above it (100 + 8 = 108). -/
theorem shipping_spec (items : List CartItem) :
    finalTotalWithShipping items =
      (if subtotal items + calculateTax (subtotal items) 8 ≥ 100
       then subtotal items + calculateTax (subtotal items) 8
       else subtotal items + calculateTax (subtotal items) 8 + 599/100) ∧
    finalTotalWithShipping lowCart = 2759/100 ∧
    finalTotalWithShipping highCart = 108 := by
  refine ⟨rfl, ?_, ?_⟩
  · simp [finalTotalWithShipping, applyShipping, totalWithTax, calculateTax,
      subtotal_eq_sum, lowCart, totalPrice, effectivePrice]
    norm_num
  · simp [finalTotalWithShipping, applyShipping, totalWithTax, calculateTax,
      subtotal_eq_sum, highCart, totalPrice, effectivePrice]
    norm_num

/-! ## C1: PlaceOrder -/

/-- C1: on an empty cart, PlaceOrder fails with the EmptyCart error and
leaves the account (cart and purchase history included) unchanged; on a
non-empty cart it empties the cart, appends every cart item stamped with the
purchase timestamp to the purchase history, and answers with the order id
`"ORDER_" + <millisecond timestamp>`, the stamped items and total equal to
the sum over cart items of price times quantity. -/
theorem place_order_spec (u : UserAccount) (now : Nat) :
    (u.cart = [] → placeOrder u now = (u, Except.error ApiError.emptyCart)) ∧
    (u.cart ≠ [] →
      (placeOrder u now).1.cart = [] ∧
      (placeOrder u now).1.purchaseHistory =
        u.purchaseHistory ++ u.cart.map (stampPurchase now) ∧
      (placeOrder u now).2 =
        Except.ok ⟨"ORDER_" ++ toString now, u.cart.map (stampPurchase now),
          (u.cart.map (fun i => i.price * i.quantity)).sum⟩) := by
  constructor
  · intro h
    simp [placeOrder, h]
  · intro h
    have hne : u.cart.isEmpty = false := by
      simpa [List.isEmpty_iff] using h
    refine ⟨?_, ?_, ?_⟩
    · simp [placeOrder, hne]
    · simp [placeOrder, hne]
    · simp only [placeOrder, hne, Bool.false_eq_true, if_false]
      have := foldl_add_eq_sum (fun i : ServerCartItem => i.price * i.quantity) u.cart 0
      simp [this]

/-- Witness for C1: a concrete empty-cart failure and a concrete successful
order with total `3 * 2 = 6`. -/
theorem place_order_spec_witness :
    placeOrder (mkUser []) 5 = (mkUser [], Except.error ApiError.emptyCart) ∧
    (placeOrder (mkUser [⟨"p", "n", 2, 3, none⟩]) 7).2 =
      Except.ok ⟨"ORDER_7", [⟨"p", "n", 2, 3, 7⟩], 6⟩ := by
  constructor
  · exact (place_order_spec (mkUser []) 5).1 rfl
  · have h := ((place_order_spec (mkUser [⟨"p", "n", 2, 3, none⟩]) 7).2 (by simp [mkUser])).2.2
    rw [h]
    norm_num [mkUser, stampPurchase]
    decide

/-! ## C2: AddToCart -/

/-- Adding a product id absent from the cart appends a fresh line item. -/
theorem addToCartItems_fresh (pid pname : String) (price q : ℚ) :
    ∀ (cart : List ServerCartItem), (∀ i ∈ cart, i.productId ≠ pid) →
      addToCartItems cart pid pname price q = cart ++ [⟨pid, pname, q, price, none⟩]
  | [], _ => rfl
  | i :: rest, h => by
    have hi : i.productId ≠ pid := h i (List.mem_cons_self i rest)
    simp only [addToCartItems, if_neg hi, List.cons_append, List.cons.injEq, true_and]
    exact addToCartItems_fresh pid pname price q rest
      (fun j hj => h j (List.mem_cons_of_mem i hj))

/-- Adding a product id that only the final line item carries increments that
item's quantity in place. -/
theorem addToCartItems_bump_last (pid pname1 pname2 : String) (price1 price2 q1 q2 : ℚ) :
    ∀ (cart : List ServerCartItem), (∀ i ∈ cart, i.productId ≠ pid) →
      addToCartItems (cart ++ [⟨pid, pname1, q1, price1, none⟩]) pid pname2 price2 q2 =
        cart ++ [⟨pid, pname1, q1 + q2, price1, none⟩]
  | [], _ => by simp [addToCartItems]
  | i :: rest, h => by
    have hi : i.productId ≠ pid := h i (List.mem_cons_self i rest)
    simp only [List.cons_append, addToCartItems, if_neg hi, List.cons.injEq, true_and]
    exact addToCartItems_bump_last pid pname1 pname2 price1 price2 q1 q2 rest
      (fun j hj => h j (List.mem_cons_of_mem i hj))

/-- Counterexample for C2 as stated ("for every account ... quantity q1+q2"):
starting from `cexBase`, whose cart already holds `p1` with quantity 5, two
AddToCart calls with quantities 1 and 1 leave a single line item with
quantity 7, not 1+1; and starting from an empty cart, quantities 0 and 5
leave quantity 6, not 0+5, because JavaScript `quantity || 1` turns 0 into 1. -/
theorem add_to_cart_twice_cex :
    ((addToCart (addToCart cexBase "p1" "Phone" 1 (some 1) 0) "p1" "Phone" 1 (some 1) 0).cart.map
        (fun i => i.quantity) = [7]) ∧ (7 : ℚ) ≠ 1 + 1 ∧
    ((addToCart (addToCart (mkUser []) "p2" "Case" 1 (some 0) 0) "p2" "Case" 1 (some 5) 0).cart.map
        (fun i => i.quantity) = [6]) ∧ (6 : ℚ) ≠ 0 + 5 := by
  refine ⟨?_, by norm_num, ?_, by norm_num⟩
  · simp [addToCart, addToCartItems, cexBase, mkUser]
    norm_num
  · simp [addToCart, addToCartItems, mkUser]
    norm_num

/-- C2 amended: for every account whose cart does not yet hold the product
reference, and nonzero quantities q1, q2 (zero falls back to the default 1),
two AddToCart calls with the same productRef leave exactly one cart line item
for it, with quantity q1+q2; when the productRef is absent a new line item is
appended, and each call updates the account's modification timestamp. -/
theorem add_to_cart_twice_fresh (u : UserAccount) (pid pname1 pname2 : String)
    (price1 price2 q1 q2 : ℚ) (n1 n2 : Nat)
    (hfresh : ∀ i ∈ u.cart, i.productId ≠ pid) (hq1 : q1 ≠ 0) (hq2 : q2 ≠ 0) :
    ((addToCart (addToCart u pid pname1 price1 (some q1) n1) pid pname2 price2 (some q2) n2).cart.filter
        (fun i => i.productId == pid)).map (fun i => i.quantity) = [q1 + q2] ∧
    (addToCart u pid pname1 price1 (some q1) n1).cart =
      u.cart ++ [⟨pid, pname1, q1, price1, none⟩] ∧
    (addToCart u pid pname1 price1 (some q1) n1).updatedAt = n1 ∧
    (addToCart (addToCart u pid pname1 price1 (some q1) n1) pid pname2 price2 (some q2) n2).updatedAt = n2 := by
  have hcart1 : (addToCart u pid pname1 price1 (some q1) n1).cart =
      u.cart ++ [⟨pid, pname1, q1, price1, none⟩] := by
    have hv : (addToCart u pid pname1 price1 (some q1) n1).cart =
        addToCartItems u.cart pid pname1 price1 (if q1 = 0 then 1 else q1) := rfl
    rw [hv, if_neg hq1]
    exact addToCartItems_fresh pid pname1 price1 q1 u.cart hfresh
  have hcart2 : (addToCart (addToCart u pid pname1 price1 (some q1) n1) pid pname2 price2
      (some q2) n2).cart = u.cart ++ [⟨pid, pname1, q1 + q2, price1, none⟩] := by
    have hv : (addToCart (addToCart u pid pname1 price1 (some q1) n1) pid pname2 price2
        (some q2) n2).cart =
        addToCartItems (addToCart u pid pname1 price1 (some q1) n1).cart pid pname2 price2
          (if q2 = 0 then 1 else q2) := rfl
    rw [hv, hcart1, if_neg hq2]
    exact addToCartItems_bump_last pid pname1 pname2 price1 price2 q1 q2 u.cart hfresh
  refine ⟨?_, hcart1, rfl, rfl⟩
  rw [hcart2]
  rw [List.filter_append]
  have hnil : u.cart.filter (fun i => i.productId == pid) = [] := by
    apply List.filter_eq_nil_iff.mpr
    intro i hi
    simpa using hfresh i hi
  rw [hnil]
  simp

/-- Witness for the amended C2 theorem: from an empty cart, adding `p` with
quantities 2 and 3 leaves the single line item `p` with quantity 5. -/
theorem add_to_cart_twice_fresh_witness :
    ((addToCart (addToCart (mkUser []) "p" "N" 4 (some 2) 1) "p" "N" 4 (some 3) 2).cart.filter
        (fun i => i.productId == "p")).map (fun i => i.quantity) = [2 + 3] :=
  (add_to_cart_twice_fresh (mkUser []) "p" "N" "N" 4 4 2 3 1 2 (by decide) (by norm_num)
    (by norm_num)).1

/-! ## C3: AddToWishlist -/

/-- When the wishlist already holds the product id the handler does nothing. -/
theorem addToWishlist_present (u : UserAccount) (pid pname : String) (pr : ℚ) (n : Nat)
    (h : u.wishlist.any (fun i => i.productId == pid) = true) :
    addToWishlist u pid pname pr n = u := by
  simp [addToWishlist, h]

/-- When the product id is absent the handler appends a fresh entry. -/
theorem addToWishlist_absent (u : UserAccount) (pid pname : String) (pr : ℚ) (n : Nat)
    (h : u.wishlist.any (fun i => i.productId == pid) = false) :
    (addToWishlist u pid pname pr n).wishlist =
      u.wishlist ++ [⟨pid, pname, pr, none⟩] := by
  simp only [addToWishlist, h, Bool.false_eq_true, if_false]

/-- C3: adding a product reference already present in the wishlist is a
no-op, the account being left unchanged; consequently, on a wishlist that
holds the reference at most once (the data-model invariant), two
AddToWishlist calls with the same productRef leave exactly one entry for it. -/
theorem add_to_wishlist_spec (u : UserAccount) (pid pname1 pname2 : String)
    (pr1 pr2 : ℚ) (n1 n2 : Nat)
    (hinv : (u.wishlist.filter (fun i => i.productId == pid)).length ≤ 1) :
    (u.wishlist.any (fun i => i.productId == pid) = true →
      addToWishlist u pid pname1 pr1 n1 = u) ∧
    ((addToWishlist (addToWishlist u pid pname1 pr1 n1) pid pname2 pr2 n2).wishlist.filter
        (fun i => i.productId == pid)).length = 1 := by
  constructor
  · exact addToWishlist_present u pid pname1 pr1 n1
  · by_cases h : u.wishlist.any (fun i => i.productId == pid) = true
    · rw [addToWishlist_present u pid pname1 pr1 n1 h,
        addToWishlist_present u pid pname2 pr2 n2 h]
      have hpos : 0 < (u.wishlist.filter (fun i => i.productId == pid)).length := by
        rw [List.any_eq_true] at h
        obtain ⟨i, hi, hip⟩ := h
        exact List.length_pos_of_mem (List.mem_filter.mpr ⟨hi, hip⟩)
      omega
    · rw [Bool.not_eq_true] at h
      have hall : ∀ i ∈ u.wishlist, ¬(i.productId == pid) = true := by
        intro i hi hip
        have : u.wishlist.any (fun i => i.productId == pid) = true :=
          List.any_eq_true.mpr ⟨i, hi, hip⟩
        rw [h] at this
        exact Bool.false_ne_true this
      have h1 : (addToWishlist u pid pname1 pr1 n1).wishlist =
          u.wishlist ++ [⟨pid, pname1, pr1, none⟩] :=
        addToWishlist_absent u pid pname1 pr1 n1 h
      have h2 : (addToWishlist u pid pname1 pr1 n1).wishlist.any
          (fun i => i.productId == pid) = true := by
        rw [h1]
        exact List.any_eq_true.mpr ⟨⟨pid, pname1, pr1, none⟩, by simp, by simp⟩
      rw [addToWishlist_present (addToWishlist u pid pname1 pr1 n1) pid pname2 pr2 n2 h2,
        h1, List.filter_append]
      have hnil : u.wishlist.filter (fun i => i.productId == pid) = [] :=
        List.filter_eq_nil_iff.mpr hall
      rw [hnil]
      simp

/-- Witness for C3: from an empty wishlist, two adds of `w` leave exactly one
entry for `w`. -/
theorem add_to_wishlist_spec_witness :
    ((addToWishlist (addToWishlist (mkUser []) "w" "W" 3 1) "w" "W" 3 2).wishlist.filter
        (fun i => i.productId == "w")).length = 1 :=
  (add_to_wishlist_spec (mkUser []) "w" "W" "W" 3 3 1 2 (by decide)).2

/-! ## C7: product search -/

/-- An empty string contains no non-empty needle. -/
theorem strContains_nil (s t : String) (hs : s.data = []) (ht : t.data ≠ []) :
    strContains s t = false := by
  unfold strContains
  rw [hs]
  cases htd : t.data with
  | nil => exact absurd htd ht
  | cons c cs => simp [List.tails, htd, List.isPrefixOf]

/-- For a non-empty query, the handler's truthiness-guarded predicate agrees
with the spec's case-insensitive-substring predicate. -/
theorem productMatches_eq_spec (q : String) (hq : q ≠ "") (p : Product) :
    productMatches q p = specSearchMatches q p := by
  have hqd : q.data ≠ [] := by
    intro hnil
    exact hq (by cases q with | mk l => simp at hnil; simp [hnil])
  have key : ∀ s : String,
      ((s != "") && strContains (lowerStr s) (lowerStr q)) =
        strContains (lowerStr s) (lowerStr q) := by
    intro s
    by_cases h : s = ""
    · subst h
      have h1 : strContains (lowerStr "") (lowerStr q) = false := by
        apply strContains_nil
        · rfl
        · show (lowerStr q).data ≠ []
          unfold lowerStr
          simpa using hqd
      simp [h1]
    · have : (s != "") = true := by simpa using h
      rw [this, Bool.true_and]
  unfold productMatches specSearchMatches
  cases p.productName <;> cases p.description <;> simp only [key]

/-- C7: for every tenant product list and non-empty query (a route parameter
is never empty), the search returns exactly the products whose name or
description contains the query as a case-insensitive substring, as a filter
of the original list, hence preserving the original relative order. -/
theorem search_products_spec (ps : List Product) (q : String) (hq : q ≠ "") :
    searchProducts ps q = ps.filter (specSearchMatches q) ∧
    List.Sublist (searchProducts ps q) ps := by
  constructor
  · unfold searchProducts
    exact List.filter_congr (fun p _ => productMatches_eq_spec q hq p)
  · exact List.filter_sublist ps

/-- Witness for C7: searching `redProducts` for "red" keeps exactly the two
products carrying "Red"/"RED" (case-insensitively), in order. -/
theorem search_products_spec_witness :
    searchProducts redProducts "red" = redProducts.filter (specSearchMatches "red") ∧
    searchProducts redProducts "red" =
      [⟨some "Red Phone", none⟩, ⟨some "Blue Case", some "a RED cover"⟩] := by
  refine ⟨(search_products_spec redProducts "red" (by decide)).1, by decide⟩

/-! ## C8: registration -/

/-- C8: under the handler's field-presence validation, registration fails
with DuplicateAccount exactly when an account with the same (tenant,
normalized email) pair already exists; on that failure the store is
unchanged; on success the returned token embeds (fresh userId, normalized
email, tenant) and an account storing the hashed credential is in the store. -/
theorem register_duplicate_spec (hash : String → String) (store : UserStore)
    (tenant first last email password phone cc : String) (now : Nat)
    (h1 : tenant ≠ "") (h2 : first ≠ "") (h3 : last ≠ "") (h4 : email ≠ "")
    (h5 : password ≠ "") (h6 : phone ≠ "") :
    ((register hash store tenant first last email password phone cc now).2 =
        Except.error ApiError.duplicateAccount ↔
      ∃ a ∈ store.accounts, a.adminObjectId = tenant ∧ a.email = lowerStr email) ∧
    ((register hash store tenant first last email password phone cc now).2 =
        Except.error ApiError.duplicateAccount →
      (register hash store tenant first last email password phone cc now).1 = store) ∧
    (∀ t, (register hash store tenant first last email password phone cc now).2 =
        Except.ok t →
      t = ⟨store.nextId, lowerStr email, tenant⟩ ∧
      ∃ a ∈ (register hash store tenant first last email password phone cc now).1.accounts,
        a.id = store.nextId ∧ a.adminObjectId = tenant ∧
        a.email = lowerStr email ∧ a.password = hash password) := by
  have hguard : ¬(tenant = "" ∨ first = "" ∨ last = "" ∨ email = "" ∨ password = "" ∨
      phone = "") := by
    simp [h1, h2, h3, h4, h5, h6]
  cases hfind : findAccount store tenant (lowerStr email) with
  | some a =>
    have hfind' : store.accounts.find?
        (fun b => b.adminObjectId == tenant && b.email == lowerStr email) = some a := hfind
    have hmem : a ∈ store.accounts := List.mem_of_find?_eq_some hfind'
    have hpred := List.find?_some hfind'
    simp only [Bool.and_eq_true, beq_iff_eq] at hpred
    refine ⟨⟨fun _ => ⟨a, hmem, hpred.1, hpred.2⟩, fun _ => ?_⟩, fun _ => ?_, fun t ht => ?_⟩
    · simp [register, if_neg hguard, hfind]
    · simp [register, if_neg hguard, hfind]
    · rw [register] at ht
      rw [if_neg hguard] at ht
      rw [hfind] at ht
      exact absurd ht (by simp)
  | none =>
    have hfind' : store.accounts.find?
        (fun b => b.adminObjectId == tenant && b.email == lowerStr email) = none := hfind
    have hnone : ∀ a ∈ store.accounts,
        ¬(a.adminObjectId == tenant && a.email == lowerStr email) = true :=
      fun a ha => List.find?_eq_none.mp hfind' a ha
    constructor
    · constructor
      · intro hc
        rw [register, if_neg hguard, hfind] at hc
        exact absurd hc (by simp)
      · rintro ⟨a, ha, hta, hea⟩
        exact absurd (by simp [hta, hea]) (hnone a ha)
    constructor
    · intro hc
      rw [register, if_neg hguard, hfind] at hc
      exact absurd hc (by simp)
    · intro t ht
      rw [register, if_neg hguard, hfind] at ht
      simp only [Except.ok.injEq] at ht
      constructor
      · exact ht.symm
      · refine ⟨{ id := store.nextId
                  adminObjectId := tenant
                  firstName := first
                  lastName := last
                  email := lowerStr email
                  password := hash password
                  phone := phone
                  countryCode := if cc = "" then "+91" else cc
                  fullName := first ++ " " ++ last
                  purchaseHistory := []
                  wishlist := []
                  cart := []
                  createdAt := now
                  updatedAt := now }, ?_, rfl, rfl, rfl, rfl⟩
        rw [register, if_neg hguard, hfind]
        exact List.mem_append_right _ (List.mem_singleton.mpr rfl)

/-- Witness for C8: registering into the empty store is not a duplicate. -/
theorem register_duplicate_spec_witness :
    (register whash ⟨[], 0⟩ "t" "f" "l" "E" "pw" "9" "" 3).2 =
        Except.error ApiError.duplicateAccount ↔
      ∃ a ∈ ([] : List UserAccount), a.adminObjectId = "t" ∧ a.email = lowerStr "E" :=
  (register_duplicate_spec whash ⟨[], 0⟩ "t" "f" "l" "E" "pw" "9" "" 3 (by decide)
    (by decide) (by decide) (by decide) (by decide) (by decide)).1

/-! ## C9: login -/

/-- C9: under the handler's field-presence validation and the collection's
unique (tenant, email) index, login succeeds — returning the token embedding
(userId, stored email, tenant) — exactly when an account with that tenant
and normalized email exists whose stored hash matches the password; in every
other case it fails with InvalidCredentials. -/
theorem login_spec (compare : String → String → Bool) (store : UserStore)
    (tenant email password : String)
    (h1 : tenant ≠ "") (h2 : email ≠ "") (h3 : password ≠ "")
    (huniq : store.accounts.Pairwise
      (fun a b => ¬(a.adminObjectId = b.adminObjectId ∧ a.email = b.email))) :
    ((∃ a ∈ store.accounts, a.adminObjectId = tenant ∧ a.email = lowerStr email ∧
        compare password a.password = true) ↔
      ∃ t, login compare store tenant email password = Except.ok t) ∧
    (∀ t, login compare store tenant email password = Except.ok t →
      ∃ a ∈ store.accounts, a.adminObjectId = tenant ∧ a.email = lowerStr email ∧
        compare password a.password = true ∧ t = ⟨a.id, a.email, tenant⟩) ∧
    ((¬∃ a ∈ store.accounts, a.adminObjectId = tenant ∧ a.email = lowerStr email ∧
        compare password a.password = true) →
      login compare store tenant email password = Except.error ApiError.invalidCredentials) := by
  have hguard : ¬(tenant = "" ∨ email = "" ∨ password = "") := by
    simp [h1, h2, h3]
  cases hfind : findAccount store tenant (lowerStr email) with
  | none =>
    have hfind' : store.accounts.find?
        (fun b => b.adminObjectId == tenant && b.email == lowerStr email) = none := hfind
    have hnone := fun a ha => List.find?_eq_none.mp hfind' a ha
    have hres : login compare store tenant email password =
        Except.error ApiError.invalidCredentials := by
      rw [login, if_neg hguard, hfind]
    refine ⟨⟨?_, ?_⟩, ?_, fun _ => hres⟩
    · rintro ⟨a, ha, hta, hea, _⟩
      exact absurd (show (a.adminObjectId == tenant && a.email == lowerStr email) = true by
        simp [hta, hea]) (hnone a ha)
    · rintro ⟨t, ht⟩
      rw [hres] at ht
      exact absurd ht (by simp)
    · intro t ht
      rw [hres] at ht
      exact absurd ht (by simp)
  | some a =>
    have hfind' : store.accounts.find?
        (fun b => b.adminObjectId == tenant && b.email == lowerStr email) = some a := hfind
    have hmem : a ∈ store.accounts := List.mem_of_find?_eq_some hfind'
    have hpred := List.find?_some hfind'
    simp only [Bool.and_eq_true, beq_iff_eq] at hpred
    by_cases hcmp : compare password a.password = true
    · have hres : login compare store tenant email password =
          Except.ok ⟨a.id, a.email, tenant⟩ := by
        rw [login, if_neg hguard, hfind]
        simp [hcmp]
      refine ⟨⟨fun _ => ⟨_, hres⟩, fun _ => ⟨a, hmem, hpred.1, hpred.2, hcmp⟩⟩, ?_, ?_⟩
      · intro t ht
        rw [hres] at ht
        simp only [Except.ok.injEq] at ht
        exact ⟨a, hmem, hpred.1, hpred.2, hcmp, ht.symm⟩
      · intro hno
        exact absurd ⟨a, hmem, hpred.1, hpred.2, hcmp⟩ hno
    · have hres : login compare store tenant email password =
          Except.error ApiError.invalidCredentials := by
        rw [login, if_neg hguard, hfind]
        simp [hcmp]
      have hnoex : ¬∃ b ∈ store.accounts, b.adminObjectId = tenant ∧
          b.email = lowerStr email ∧ compare password b.password = true := by
        rintro ⟨b, hb, htb, heb, hcb⟩
        by_cases hab : a = b
        · exact hcmp (hab ▸ hcb)
        · have hsym : Symmetric (fun x y : UserAccount =>
              ¬(x.adminObjectId = y.adminObjectId ∧ x.email = y.email)) := by
            intro x y hxy hyx
            exact hxy ⟨hyx.1.symm, hyx.2.symm⟩
          exact (huniq.forall hsym) hmem hb hab
            ⟨hpred.1.trans htb.symm, hpred.2.trans heb.symm⟩
      refine ⟨⟨fun hex => absurd hex hnoex, ?_⟩, ?_, fun _ => hres⟩
      · rintro ⟨t, ht⟩
        rw [hres] at ht
        exact absurd ht (by simp)
      · intro t ht
        rw [hres] at ht
        exact absurd ht (by simp)

/-- Witness for C9: the right password logs into the one-account store. -/
theorem login_spec_witness :
    ∃ t, login wcompare store0 "t" "e" "pw" = Except.ok t :=
  (login_spec wcompare store0 "t" "e" "pw" (by decide) (by decide) (by decide)
    (by simp [store0])).1.mp
    ⟨mkUser [], by simp [store0], by decide, by decide, by decide⟩

/-! ## C10: client updateQuantity -/

/-- C10: `CartManager.updateQuantity` with an id no cart item carries throws
(the `firstWhere` lookup has no `orElse` fallback, modelled as `none`) rather
than being a no-op; with a present id it returns a cart of the same length in
which an item with that id has the given quantity — zero included, the item
is not removed. -/
theorem update_quantity_spec (items : List CartItem) (id : String) (q : Int) :
    ((∀ i ∈ items, i.id ≠ id) → cartUpdateQuantity items id q = none) ∧
    ((∃ i ∈ items, i.id = id) → ∃ l, cartUpdateQuantity items id q = some l ∧
      l.length = items.length ∧ ∃ i ∈ l, i.id = id ∧ i.quantity = q) := by
  induction items with
  | nil =>
    refine ⟨fun _ => rfl, ?_⟩
    rintro ⟨i, hi, _⟩
    cases hi
  | cons i rest ih =>
    constructor
    · intro h
      have hi : i.id ≠ id := h i (List.mem_cons_self i rest)
      simp only [cartUpdateQuantity, if_neg hi]
      rw [ih.1 (fun j hj => h j (List.mem_cons_of_mem i hj))]
      rfl
    · rintro ⟨j, hj, hjid⟩
      by_cases hi : i.id = id
      · exact ⟨{ i with quantity := q } :: rest, by simp [cartUpdateQuantity, hi],
          by simp, { i with quantity := q }, List.mem_cons_self _ _, hi, rfl⟩
      · rcases List.mem_cons.mp hj with hj1 | hj2
        · exact absurd (hj1 ▸ hjid) hi
        · obtain ⟨l, hl, hlen, k, hk, hkid, hkq⟩ := ih.2 ⟨j, hj2, hjid⟩
          exact ⟨i :: l, by simp [cartUpdateQuantity, hi, hl], by simp [hlen],
            k, List.mem_cons_of_mem i hk, hkid, hkq⟩

/-- Witness for C10: on the two-item cart, an unknown id yields `none`
(throws) and id "b" with quantity 0 keeps both items, "b" at quantity 0. -/
theorem update_quantity_spec_witness :
    cartUpdateQuantity witnessItems "zz" 3 = none ∧
    ∃ l, cartUpdateQuantity witnessItems "b" 0 = some l ∧
      l.length = witnessItems.length ∧ ∃ i ∈ l, i.id = "b" ∧ i.quantity = 0 :=
  ⟨(update_quantity_spec witnessItems "zz" 3).1 (by decide),
   (update_quantity_spec witnessItems "b" 0).2 (by decide)⟩

/-! ## C4: per-collection uniqueness invariant -/

/-- Every id in the result of `cartAddItem` is the added item's id or one
already in the cart. -/
theorem mem_cartAddItem_id : ∀ (s : List CartItem) (item x : CartItem),
    x ∈ cartAddItem s item → x.id = item.id ∨ ∃ y ∈ s, x.id = y.id
  | [], item, x, hx => by
    simp only [cartAddItem, List.mem_singleton] at hx
    exact Or.inl (by rw [hx])
  | i :: rest, item, x, hx => by
    by_cases h : i.id = item.id
    · simp only [cartAddItem, if_pos h] at hx
      rcases List.mem_cons.mp hx with h1 | h2
      · exact Or.inr ⟨i, List.mem_cons_self i rest, by rw [h1]⟩
      · exact Or.inr ⟨x, List.mem_cons_of_mem i h2, rfl⟩
    · simp only [cartAddItem, if_neg h] at hx
      rcases List.mem_cons.mp hx with h1 | h2
      · exact Or.inr ⟨i, List.mem_cons_self i rest, by rw [h1]⟩
      · rcases mem_cartAddItem_id rest item x h2 with ha | ⟨y, hy, hxy⟩
        · exact Or.inl ha
        · exact Or.inr ⟨y, List.mem_cons_of_mem i hy, hxy⟩

/-- `cartAddItem` preserves pairwise-distinct ids. -/
theorem cartAddItem_pairwise : ∀ (s : List CartItem) (item : CartItem),
    s.Pairwise (fun a b => a.id ≠ b.id) →
    (cartAddItem s item).Pairwise (fun a b => a.id ≠ b.id)
  | [], item, _ => List.pairwise_singleton _ item
  | i :: rest, item, h => by
    rcases List.pairwise_cons.mp h with ⟨hrel, hrest⟩
    by_cases hid : i.id = item.id
    · simp only [cartAddItem, if_pos hid]
      exact List.pairwise_cons.mpr ⟨fun b hb => hrel b hb, hrest⟩
    · simp only [cartAddItem, if_neg hid]
      refine List.pairwise_cons.mpr ⟨?_, cartAddItem_pairwise rest item hrest⟩
      intro b hb
      rcases mem_cartAddItem_id rest item b hb with h1 | ⟨y, hy, hby⟩
      · rw [h1]; exact hid
      · rw [hby]; exact hrel y hy

/-- `cartUpdateQuantity` leaves the list of ids unchanged. -/
theorem cartUpdateQuantity_ids : ∀ (s : List CartItem) (id : String) (q : Int)
    (s' : List CartItem), cartUpdateQuantity s id q = some s' →
    s'.map (fun i => i.id) = s.map (fun i => i.id)
  | [], _, _, _, h => by cases h
  | i :: rest, id, q, s', h => by
    by_cases hid : i.id = id
    · simp only [cartUpdateQuantity, if_pos hid, Option.some.injEq] at h
      rw [← h]
      simp
    · simp only [cartUpdateQuantity, if_neg hid] at h
      cases ht : cartUpdateQuantity rest id q with
      | none => rw [ht] at h; exact absurd h (by simp)
      | some t =>
        rw [ht] at h
        simp only [Option.map_some', Option.some.injEq] at h
        rw [← h]
        simp only [List.map_cons]
        rw [cartUpdateQuantity_ids rest id q t ht]

/-- Every productId in the result of `addToCartItems` is the added one or one
already in the cart. -/
theorem mem_addToCartItems_id : ∀ (s : List ServerCartItem) (pid pname : String)
    (price q : ℚ) (x : ServerCartItem), x ∈ addToCartItems s pid pname price q →
    x.productId = pid ∨ ∃ y ∈ s, x.productId = y.productId
  | [], pid, pname, price, q, x, hx => by
    simp only [addToCartItems, List.mem_singleton] at hx
    exact Or.inl (by rw [hx])
  | i :: rest, pid, pname, price, q, x, hx => by
    by_cases h : i.productId = pid
    · simp only [addToCartItems, if_pos h] at hx
      rcases List.mem_cons.mp hx with h1 | h2
      · exact Or.inr ⟨i, List.mem_cons_self i rest, by rw [h1]⟩
      · exact Or.inr ⟨x, List.mem_cons_of_mem i h2, rfl⟩
    · simp only [addToCartItems, if_neg h] at hx
      rcases List.mem_cons.mp hx with h1 | h2
      · exact Or.inr ⟨i, List.mem_cons_self i rest, by rw [h1]⟩
      · rcases mem_addToCartItems_id rest pid pname price q x h2 with ha | ⟨y, hy, hxy⟩
        · exact Or.inl ha
        · exact Or.inr ⟨y, List.mem_cons_of_mem i hy, hxy⟩

/-- `addToCartItems` preserves pairwise-distinct product ids. -/
theorem addToCartItems_pairwise : ∀ (s : List ServerCartItem) (pid pname : String)
    (price q : ℚ), s.Pairwise (fun a b => a.productId ≠ b.productId) →
    (addToCartItems s pid pname price q).Pairwise (fun a b => a.productId ≠ b.productId)
  | [], pid, pname, price, q, _ => List.pairwise_singleton _ _
  | i :: rest, pid, pname, price, q, h => by
    rcases List.pairwise_cons.mp h with ⟨hrel, hrest⟩
    by_cases hid : i.productId = pid
    · simp only [addToCartItems, if_pos hid]
      exact List.pairwise_cons.mpr ⟨fun b hb => hrel b hb, hrest⟩
    · simp only [addToCartItems, if_neg hid]
      refine List.pairwise_cons.mpr ⟨?_, addToCartItems_pairwise rest pid pname price q hrest⟩
      intro b hb
      rcases mem_addToCartItems_id rest pid pname price q b hb with h1 | ⟨y, hy, hby⟩
      · rw [h1]; exact hid
      · rw [hby]; exact hrel y hy

/-- The wishlist handler leaves the cart untouched. -/
theorem addToWishlist_cart (u : UserAccount) (pid pname : String) (pr : ℚ) (n : Nat) :
    (addToWishlist u pid pname pr n).cart = u.cart := by
  unfold addToWishlist
  by_cases h : u.wishlist.any (fun i => i.productId == pid) = true
  · rw [if_pos h]
  · rw [if_neg h]

/-- The wishlist handler preserves pairwise-distinct wishlist product ids. -/
theorem addToWishlist_nodup (u : UserAccount) (pid pname : String) (pr : ℚ) (n : Nat)
    (h : ((u.wishlist.map (fun i => i.productId)).Nodup)) :
    ((addToWishlist u pid pname pr n).wishlist.map (fun i => i.productId)).Nodup := by
  by_cases hc : u.wishlist.any (fun i => i.productId == pid) = true
  · rw [addToWishlist_present u pid pname pr n hc]
    exact h
  · rw [addToWishlist_absent u pid pname pr n (by simpa using hc)]
    rw [List.map_append, List.nodup_append_comm]
    simp only [List.map_cons, List.map_nil, List.nil_append, List.singleton_append,
      List.nodup_cons]
    refine ⟨?_, h⟩
    intro hmem
    rcases List.mem_map.mp hmem with ⟨y, hy, hyp⟩
    exact hc (List.any_eq_true.mpr ⟨y, hy, by simp [hyp]⟩)

/-- The order handler results in an empty cart or the untouched one, and
never touches the wishlist. -/
theorem placeOrder_state (u : UserAccount) (now : Nat) :
    ((placeOrder u now).1.cart = u.cart ∨ (placeOrder u now).1.cart = []) ∧
    (placeOrder u now).1.wishlist = u.wishlist := by
  unfold placeOrder
  by_cases h : u.cart.isEmpty = true
  · rw [if_pos h]
    exact ⟨Or.inl rfl, rfl⟩
  · rw [if_neg h]
    exact ⟨Or.inr rfl, rfl⟩

/-- C4: each product reference appears in at most one line item of any
reachable client cart, client wishlist, or server-side account cart and
wishlist — every add, remove, update-quantity, clear and place-order
operation preserves per-collection uniqueness of references. -/
theorem uniqueness_invariant :
    (∀ s, CartReach s → uniqueKeys (fun i => i.id) s) ∧
    (∀ w, WishReach w → uniqueKeys (fun i => i.id) w) ∧
    (∀ u, AccountReach u → uniqueKeys (fun i => i.productId) u.cart ∧
      uniqueKeys (fun i => i.productId) u.wishlist) := by
  refine ⟨?_, ?_, ?_⟩
  · intro s hs
    induction hs with
    | start => simp [uniqueKeys]
    | add s item _ ih =>
      rw [uniqueKeys, List.Nodup, List.pairwise_map] at ih ⊢
      exact cartAddItem_pairwise s item ih
    | remove s id _ ih =>
      exact List.Nodup.sublist (List.Sublist.map _ (List.filter_sublist s)) ih
    | update s id q s' _ heq ih =>
      rw [uniqueKeys, cartUpdateQuantity_ids s id q s' heq]
      exact ih
    | clear s _ _ => simp [uniqueKeys, cartClear]
  · intro w hw
    induction hw with
    | start => simp [uniqueKeys]
    | add s item _ ih =>
      rw [uniqueKeys] at ih ⊢
      unfold wishlistAddItem
      by_cases hc : s.any (fun i => i.id == item.id) = true
      · rw [if_pos hc]; exact ih
      · rw [if_neg hc, List.map_append, List.nodup_append_comm]
        simp only [List.map_cons, List.map_nil, List.singleton_append, List.nodup_cons]
        refine ⟨?_, ih⟩
        intro hmem
        rcases List.mem_map.mp hmem with ⟨y, hy, hyp⟩
        exact hc (List.any_eq_true.mpr ⟨y, hy, by simp [hyp]⟩)
    | remove s id _ ih =>
      exact List.Nodup.sublist (List.Sublist.map _ (List.filter_sublist s)) ih
    | clear s _ _ => simp [uniqueKeys]
  · intro u hu
    induction hu with
    | created u hc hw => rw [hc, hw]; exact ⟨by simp [uniqueKeys], by simp [uniqueKeys]⟩
    | cartStep u pid pname price q now _ ih =>
      constructor
      · have hcart : (addToCart u pid pname price q now).cart =
            addToCartItems u.cart pid pname price
              (match q with | none => 1 | some qq => if qq = 0 then 1 else qq) := rfl
        rw [uniqueKeys, hcart, List.Nodup, List.pairwise_map]
        have := ih.1
        rw [uniqueKeys, List.Nodup, List.pairwise_map] at this
        exact addToCartItems_pairwise u.cart pid pname price _ this
      · exact ih.2
    | wishStep u pid pname price now _ ih =>
      constructor
      · rw [uniqueKeys, addToWishlist_cart]
        exact ih.1
      · exact addToWishlist_nodup u pid pname price now ih.2
    | orderStep u now _ ih =>
      obtain ⟨hcart, hwish⟩ := placeOrder_state u now
      constructor
      · rcases hcart with h | h
        · rw [uniqueKeys, h]; exact ih.1
        · rw [uniqueKeys, h]; simp
      · rw [uniqueKeys, hwish]; exact ih.2

/-- Witness for C4: a concrete reachable client cart (two adds of the same
id) and a concrete reachable account (register-shaped start, one cart add,
one wishlist add) satisfy the uniqueness invariant. -/
theorem uniqueness_invariant_witness :
    uniqueKeys (fun i => i.id)
      (cartAddItem (cartAddItem [] ⟨"a", "A", 1, 0, 1, none⟩) ⟨"a", "A", 1, 0, 2, none⟩) ∧
    uniqueKeys (fun i => i.productId)
      (addToWishlist (addToCart (mkUser []) "p" "N" 2 (some 1) 3) "w" "W" 4 5).cart :=
  ⟨uniqueness_invariant.1 _
      (CartReach.add _ _ (CartReach.add _ _ CartReach.start)),
   (uniqueness_invariant.2.2 _
      (AccountReach.wishStep _ "w" "W" 4 5
        (AccountReach.cartStep _ "p" "N" 2 (some 1) 3
          (AccountReach.created (mkUser []) rfl rfl)))).1⟩

end PhoneShop
